import Mathlib

/-!
Verification development for the luna-melody MIDI visualization front-end.

The TypeScript sources are shallowly embedded over exact rationals:
JavaScript numbers become `ℚ`, MIDI pitches become `ℕ`, and the stateful
React component `MidiPlayer` becomes an explicit record `PlayerState` with
pure state-transition functions.  `Math.round` is embedded as
`fun x => ⌊x + 1/2⌋`, which is its behaviour on all inputs relevant here.
-/

namespace LunaMelody

/-- Shared helper from all three components:
`const clamp = (v, min, max) => Math.min(max, Math.max(min, v))`. -/
def clampQ (v lo hi : ℚ) : ℚ := min hi (max lo v)

/-- The same clamp specialised to natural numbers (used on MIDI pitches). -/
def clampN (v lo hi : ℕ) : ℕ := min hi (max lo v)

/-- JavaScript `Math.round` (round half toward positive infinity). -/
def jsRound (x : ℚ) : ℤ := ⌊x + 1 / 2⌋

/-- `PianoNote` from PianoRoll.tsx: `{ midi, time, duration, velocity }`. -/
structure PianoNote where
  midi : ℕ
  time : ℚ
  duration : ℚ
  velocity : ℚ
deriving DecidableEq, Repr

/-- FallingPiano.tsx `isBlack`: black-key test on the pitch class `midi % 12`. -/
def isBlack (midi : ℕ) : Bool :=
  let pc := midi % 12
  pc == 1 || pc == 3 || pc == 6 || pc == 8 || pc == 10

/-- The `BLACK_KEY_PC` set from the alternate PianoRoll source (unnamed part_000). -/
def BLACK_KEY_PC : List ℕ := [1, 3, 6, 8, 10]

/-- `isBlackKey` from the alternate PianoRoll source (unnamed part_000). -/
def isBlackKey (midi : ℕ) : Bool := BLACK_KEY_PC.contains (midi % 12)

/-- FallingPiano.tsx `colorForKeyType`: brand color for black-key pitches,
brand-2 for white-key pitches. -/
def colorForKeyType (m : ℕ) : String :=
  if isBlack m then "hsl(var(--brand))" else "hsl(var(--brand-2))"

/-- The `minMidi`/`maxMidi` useMemo shared by PianoRoll.tsx and FallingPiano.tsx:
the empty list yields `(21, 108)`; otherwise min/max pitch are clamped to
`[21, 108]` and the top is pushed up to ensure a spread of at least 12
(capped at 108). -/
def minMaxMidi (notes : List PianoNote) : ℕ × ℕ :=
  match notes with
  | [] => (21, 108)
  | n :: rest =>
    let mn := rest.foldl (fun a x => min a x.midi) n.midi
    let mx := rest.foldl (fun a x => max a x.midi) n.midi
    let mn2 := clampN mn 21 108
    let mx2 := clampN mx 21 108
    if mx2 - mn2 < 12 then (mn2, min 108 (mn2 + 12)) else (mn2, mx2)

/-- The ResizeObserver width update shared by the components:
`setWidth(Math.max(320, Math.floor(cr.width)))`. -/
def resizeWidth (contentWidth : ℚ) : ℚ := max 320 (⌊contentWidth⌋ : ℚ)

/-- PianoRoll.tsx `pps`: `totalDuration > 0 ? width / totalDuration : 100`. -/
def ppsRoll (width totalDuration : ℚ) : ℚ :=
  if 0 < totalDuration then width / totalDuration else 100

/-- PianoRoll.tsx `midiToY`: normalized pitch position, clamped to `[0, 1]`,
mapped (inverted) into the padded vertical band and rounded. -/
def midiToY (minMidi maxMidi : ℕ) (height : ℚ) (midi : ℕ) : ℚ :=
  let range : ℚ := (maxMidi : ℚ) - (minMidi : ℚ)
  let normalized :=
    clampQ (((midi : ℚ) - (minMidi : ℚ)) / (if range = 0 then 1 else range)) 0 1
  ((jsRound ((1 - normalized) * (height - 24)) : ℤ) : ℚ) + 12

/-- PianoRoll.tsx `playheadX = clamp(currentTime * pps, 0, width)`. -/
def playheadX (currentTime width totalDuration : ℚ) : ℚ :=
  clampQ (currentTime * ppsRoll width totalDuration) 0 width

/-- A screen-space rectangle (SVG `rect` attributes). -/
structure NoteRect where
  x : ℚ
  y : ℚ
  w : ℚ
  h : ℚ
deriving DecidableEq, Repr

/-- Per-note rectangle from the PianoRoll.tsx render loop:
`x = n.time * pps`, `w = Math.max(2, n.duration * pps)`, height 6,
top edge `midiToY(n.midi) - h/2`. -/
def noteRect (minMidi maxMidi : ℕ) (width totalDuration height : ℚ)
    (n : PianoNote) : NoteRect :=
  let pps := ppsRoll width totalDuration
  let x := n.time * pps
  let w := max 2 (n.duration * pps)
  let y := midiToY minMidi maxMidi height n.midi
  ⟨x, y - 6 / 2, w, 6⟩

/-- All note rectangles rendered by PianoRoll.tsx (`notes.map`). -/
def pianoRollRects (notes : List PianoNote) (width totalDuration height : ℚ) :
    List NoteRect :=
  let p := minMaxMidi notes
  notes.map (noteRect p.1 p.2 width totalDuration height)

/-- FallingPiano.tsx `keyboardHeight = 88`. -/
def keyboardHeight : ℚ := 88

/-- FallingPiano.tsx `laneHeight = Math.max(120, height - keyboardHeight)`. -/
def laneHeight (height : ℚ) : ℚ := max 120 (height - keyboardHeight)

/-- FallingPiano.tsx `visibleSeconds = 8`. -/
def visibleSeconds : ℚ := 8

/-- FallingPiano.tsx `pps = laneHeight / visibleSeconds`. -/
def ppsFall (height : ℚ) : ℚ := laneHeight height / visibleSeconds

/-- FallingPiano.tsx `yBottom = laneHeight - dtStart * pps`: the unclipped
bottom edge (note head) of a falling note at the current playback time. -/
def yBottomFall (height currentTime : ℚ) (n : PianoNote) : ℚ :=
  laneHeight height - (n.time - currentTime) * ppsFall height

/-- FallingPiano.tsx `KeyInfo = { x, w, black }`. -/
structure KeyInfo where
  x : ℚ
  w : ℚ
  black : Bool
deriving DecidableEq, Repr

/-- The pitches visited by `for (let m = minMidi; m <= maxMidi; m++)`. -/
def midiRange (minMidi maxMidi : ℕ) : List ℕ :=
  (List.range (maxMidi + 1 - minMidi)).map (fun i => minMidi + i)

/-- The body of the FallingPiano.tsx `keyMap` loop, carrying the running
`currentWhite` counter.  White keys take a full `whiteWidth` slot; black keys
are 0.6 of a slot, centred after the previous white key and clamped into the
lane.  (`Math.max(0, currentWhite - 1)` coincides with truncated `ℕ`
subtraction.) -/
def buildKeyMapAux (width whiteWidth : ℚ) : List ℕ → ℕ → List (ℕ × KeyInfo)
  | [], _ => []
  | m :: rest, currentWhite =>
    if isBlack m then
      let prevWhiteIndex := currentWhite - 1
      let xPrev := (prevWhiteIndex : ℚ) * whiteWidth
      let bw := whiteWidth * (3 / 5)
      let x := xPrev + whiteWidth * (33 / 50) - bw / 2
      (m, ⟨clampQ x 0 (width - bw), bw, true⟩) ::
        buildKeyMapAux width whiteWidth rest currentWhite
    else
      (m, ⟨(currentWhite : ℚ) * whiteWidth, whiteWidth, false⟩) ::
        buildKeyMapAux width whiteWidth rest (currentWhite + 1)

/-- FallingPiano.tsx `keyMap` useMemo: one entry per pitch in
`[minMidi, maxMidi]`. -/
def buildKeyMap (minMidi maxMidi : ℕ) (width : ℚ) : List (ℕ × KeyInfo) :=
  let whiteTotal := ((midiRange minMidi maxMidi).filter (fun m => !isBlack m)).length
  let whiteWidth := width / max 1 (whiteTotal : ℚ)
  buildKeyMapAux width whiteWidth (midiRange minMidi maxMidi) 0

/-- The JavaScript record lookup `keyMap[m]` (`none` models `undefined`). -/
def keyMapFind (km : List (ℕ × KeyInfo)) (m : ℕ) : Option KeyInfo :=
  (km.find? (fun p => p.1 == m)).map Prod.snd

/-- An entry of the FallingPiano.tsx `visibleNotes` list. -/
structure FallEntry where
  note : PianoNote
  x : ℚ
  w : ℚ
  y : ℚ
  h : ℚ
deriving DecidableEq, Repr

/-- One iteration of the FallingPiano.tsx `visibleNotes` loop: skip notes with
no key-map entry, notes ended more than 1 s ago, notes starting more than
`visibleSeconds + 1` s in the future, and notes whose lane-clipped height is
not positive; otherwise emit the clipped rectangle over the note's key column. -/
def visibleEntry (km : List (ℕ × KeyInfo)) (height currentTime : ℚ)
    (n : PianoNote) : Option FallEntry :=
  match keyMapFind km n.midi with
  | none => none
  | some k =>
    let dtStart := n.time - currentTime
    let dtEnd := n.time + n.duration - currentTime
    if dtEnd < -1 then none
    else if visibleSeconds + 1 < dtStart then none
    else
      let yBottom := yBottomFall height currentTime n
      let h := max 2 (n.duration * ppsFall height)
      let yTop := yBottom - h
      let y := clampQ yTop 0 (laneHeight height)
      let clippedH := clampQ yBottom 0 (laneHeight height) - y
      if clippedH ≤ 0 then none
      else some ⟨n, k.x, k.w, y, clippedH⟩

/-- FallingPiano.tsx `visibleNotes`: the filtered entries, sorted by `y`. -/
def visibleNotes (notes : List PianoNote) (height currentTime width : ℚ)
    (minMidi maxMidi : ℕ) : List FallEntry :=
  (notes.filterMap (visibleEntry (buildKeyMap minMidi maxMidi width) height currentTime)).mergeSort
    (fun a b => decide (a.y ≤ b.y))

/-- The toast notifications emitted by MidiPlayer.tsx. -/
inductive Toast where
  | success : String → Toast
  | error : String → Toast
  | info : String → Toast
deriving DecidableEq, Repr

/-- A note event as delivered by the `@tonejs/midi` parser. -/
structure MidiNoteEv where
  midi : ℕ
  time : ℚ
  duration : ℚ
  velocity : ℚ
deriving DecidableEq, Repr

/-- A parsed MIDI track (only the `notes` array is used). -/
structure MidiTrack where
  notes : List MidiNoteEv
deriving DecidableEq, Repr

/-- The nested `midi.tracks.forEach / t.notes.forEach` collection loop of
`loadMidiFromData`. -/
def collectNotes (tracks : List MidiTrack) : List PianoNote :=
  tracks.flatMap (fun t => t.notes.map (fun n => ⟨n.midi, n.time, n.duration, n.velocity⟩))

/-- The comparator `(a, b) => a.time - b.time` as a sort predicate. -/
def noteTimeLE (a b : PianoNote) : Bool := decide (a.time ≤ b.time)

/-- Maximum of `time + duration` over a list of notes, 0 for the empty list
(the natural-language reading of the stored duration). -/
def maxEndTime : List PianoNote → ℚ
  | [] => 0
  | n :: rest => rest.foldl (fun acc x => max acc (x.time + x.duration)) (n.time + n.duration)

/-- The MidiPlayer.tsx state touched by loading and seeking: React state
(`fileName`, `notes`, `duration`, `isPlaying`, `currentTime`) plus the
external Tone.js transport clock in seconds. -/
structure PlayerState where
  fileName : Option String
  notes : List PianoNote
  duration : ℚ
  isPlaying : Bool
  currentTime : ℚ
  transportSeconds : ℚ
deriving DecidableEq, Repr

/-- MidiPlayer.tsx `loadMidiFromData`.  A parse failure (`new Midi(data)`
throwing) is `none`: it only toasts an error.  On success the collected notes
are sorted by start time, the duration is the max-reduce of note end times
with initial value 0, the file name is stored, the transport is rewound to 0
and playback is marked stopped. -/
def loadMidiFromData (s : PlayerState) (parsed : Option (List MidiTrack))
    (name : String) : PlayerState × Toast :=
  match parsed with
  | none => (s, Toast.error "Failed to load MIDI file.")
  | some tracks =>
    let collected := (collectNotes tracks).mergeSort noteTimeLE
    let total := collected.foldl (fun acc n => max acc (n.time + n.duration)) 0
    ({ s with notes := collected, duration := total, fileName := some name,
              transportSeconds := 0, isPlaying := false },
     Toast.success "MIDI loaded! Ready to play.")

/-- MidiPlayer.tsx `handleScrubEnd`: clamp the released value to
`[0, duration || 0]`, move the transport clock there, optionally resume
playback, and set the UI `currentTime` to the same target. -/
def handleScrubEnd (s : PlayerState) (wasPlaying : Bool) (val : ℚ) : PlayerState :=
  let target := min (max 0 val) (if s.duration = 0 then 0 else s.duration)
  let s1 := { s with transportSeconds := target }
  let s2 := if wasPlaying then { s1 with isPlaying := true } else s1
  { s2 with currentTime := target }

/-! ### Helper lemmas -/

/-- A running minimum never exceeds a running maximum. -/
lemma foldl_min_le_foldl_max (l : List PianoNote) (a b : ℕ) (h : a ≤ b) :
    l.foldl (fun acc x => min acc x.midi) a ≤ l.foldl (fun acc x => max acc x.midi) b := by
  induction l generalizing a b with
  | nil => simpa using h
  | cons x xs ih =>
    exact ih _ _ (le_trans (min_le_left _ _) (le_trans h (le_max_left _ _)))

/-- The pitch-range invariants of the `minMidi`/`maxMidi` useMemo. -/
lemma minMaxMidi_spec (notes : List PianoNote) :
    21 ≤ (minMaxMidi notes).1 ∧
    (minMaxMidi notes).1 ≤ (minMaxMidi notes).2 ∧
    (minMaxMidi notes).2 ≤ 108 ∧
    (notes = [] → minMaxMidi notes = (21, 108)) ∧
    ((minMaxMidi notes).1 ≤ 96 → 12 ≤ (minMaxMidi notes).2 - (minMaxMidi notes).1) := by
  cases notes with
  | nil => simp [minMaxMidi]
  | cons n rest =>
    have hmm : rest.foldl (fun a x => min a x.midi) n.midi ≤
        rest.foldl (fun a x => max a x.midi) n.midi :=
      foldl_min_le_foldl_max rest n.midi n.midi le_rfl
    simp only [minMaxMidi, clampN]
    split
    · refine ⟨by omega, by omega, by omega, by simp, by omega⟩
    · rename_i hsplit
      refine ⟨by omega, by omega, by omega, by simp, by omega⟩

/-- `clampQ` lands in `[lo, hi]` whenever `lo ≤ hi`. -/
lemma clampQ_mem (v lo hi : ℚ) (h : lo ≤ hi) :
    lo ≤ clampQ v lo hi ∧ clampQ v lo hi ≤ hi :=
  ⟨le_min h (le_max_left _ _), min_le_left _ _⟩

/-- `clampQ` is monotone in its value argument. -/
lemma clampQ_mono {v1 v2 : ℚ} (lo hi : ℚ) (h : v1 ≤ v2) :
    clampQ v1 lo hi ≤ clampQ v2 lo hi :=
  min_le_min le_rfl (max_le_max le_rfl h)

/-- With a pitch window `minMidi ≤ maxMidi` and height at least 24, `midiToY`
is antitone in the pitch. -/
lemma midiToY_mono (mn mx : ℕ) (hmm : mn ≤ mx) (height : ℚ) (hh : 24 ≤ height)
    (m1 m2 : ℕ) (h : m1 ≤ m2) :
    midiToY mn mx height m2 ≤ midiToY mn mx height m1 := by
  unfold midiToY
  set d : ℚ := if ((mx : ℚ) - (mn : ℚ)) = 0 then 1 else (mx : ℚ) - (mn : ℚ) with hd
  have hmnx : (mn : ℚ) ≤ (mx : ℚ) := by exact_mod_cast hmm
  have hdpos : 0 < d := by
    rw [hd]
    split
    · norm_num
    · rename_i hne
      exact lt_of_le_of_ne (by linarith) (fun habs => hne habs.symm)
  have hnum : ((m1 : ℚ) - (mn : ℚ)) / d ≤ ((m2 : ℚ) - (mn : ℚ)) / d := by
    have : (m1 : ℚ) ≤ (m2 : ℚ) := by exact_mod_cast h
    exact (div_le_div_iff_of_pos_right hdpos).mpr (by linarith)
  have hnv := clampQ_mono 0 1 hnum
  have hmul : (1 - clampQ (((m2 : ℚ) - (mn : ℚ)) / d) 0 1) * (height - 24) ≤
      (1 - clampQ (((m1 : ℚ) - (mn : ℚ)) / d) 0 1) * (height - 24) :=
    mul_le_mul_of_nonneg_right (by linarith) (by linarith)
  have hfl := Int.floor_le_floor (α := ℚ)
    (add_le_add_right hmul (1 / 2))
  have hcast : ((jsRound ((1 - clampQ (((m2 : ℚ) - (mn : ℚ)) / d) 0 1) * (height - 24)) : ℤ) : ℚ)
      ≤ ((jsRound ((1 - clampQ (((m1 : ℚ) - (mn : ℚ)) / d) 0 1) * (height - 24)) : ℤ) : ℚ) := by
    exact_mod_cast hfl
  linarith

/-- For an integer height at least 24, `midiToY` lands in
`[12, height - 12]` for every pitch. -/
lemma midiToY_bounds (mn mx : ℕ) (k : ℤ) (m : ℕ) (hk : 24 ≤ k) :
    12 ≤ midiToY mn mx (k : ℚ) m ∧ midiToY mn mx (k : ℚ) m ≤ (k : ℚ) - 12 := by
  unfold midiToY
  set q : ℚ := ((m : ℚ) - (mn : ℚ)) /
    (if ((mx : ℚ) - (mn : ℚ)) = 0 then 1 else (mx : ℚ) - (mn : ℚ)) with hq
  obtain ⟨h0, h1⟩ := clampQ_mem q 0 1 (by norm_num)
  have hk' : (24 : ℚ) ≤ (k : ℚ) := by exact_mod_cast hk
  have hx0 : 0 ≤ (1 - clampQ q 0 1) * ((k : ℚ) - 24) :=
    mul_nonneg (by linarith) (by linarith)
  have hx1 : (1 - clampQ q 0 1) * ((k : ℚ) - 24) ≤ (k : ℚ) - 24 :=
    mul_le_of_le_one_left (by linarith) (by linarith)
  have hfl0 : (0 : ℤ) ≤ jsRound ((1 - clampQ q 0 1) * ((k : ℚ) - 24)) :=
    Int.le_floor.mpr (by push_cast; linarith)
  have hfl1 : jsRound ((1 - clampQ q 0 1) * ((k : ℚ) - 24)) < k - 23 :=
    Int.floor_lt.mpr (by push_cast; linarith)
  constructor
  · have : (0 : ℚ) ≤ ((jsRound ((1 - clampQ q 0 1) * ((k : ℚ) - 24)) : ℤ) : ℚ) := by
      exact_mod_cast hfl0
    linarith
  · have : ((jsRound ((1 - clampQ q 0 1) * ((k : ℚ) - 24)) : ℤ) : ℚ) ≤ (k : ℚ) - 24 := by
      exact_mod_cast (by omega : jsRound ((1 - clampQ q 0 1) * ((k : ℚ) - 24)) ≤ k - 24)
    linarith

/-- The sort comparator `noteTimeLE` is transitive. -/
lemma noteTimeLE_trans : ∀ a b c : PianoNote,
    noteTimeLE a b = true → noteTimeLE b c = true → noteTimeLE a c = true := by
  intro a b c hab hbc
  simp only [noteTimeLE, decide_eq_true_eq] at *
  exact le_trans hab hbc

/-- The sort comparator `noteTimeLE` is total. -/
lemma noteTimeLE_total : ∀ a b : PianoNote,
    (noteTimeLE a b || noteTimeLE b a) = true := by
  intro a b
  simp only [noteTimeLE, Bool.or_eq_true, decide_eq_true_eq]
  exact le_total a.time b.time

/-- The max-reduce with initial accumulator 0 computes `maxEndTime` as soon as
all note end times are nonnegative. -/
lemma foldl_max_eq_maxEndTime (l : List PianoNote)
    (h : ∀ n ∈ l, 0 ≤ n.time + n.duration) :
    l.foldl (fun acc n => max acc (n.time + n.duration)) 0 = maxEndTime l := by
  cases l with
  | nil => rfl
  | cons n rest =>
    simp only [List.foldl_cons, maxEndTime]
    congr 1
    exact max_eq_right (h n (List.mem_cons_self _ _))

/-- Mapping a function over an option does not change definedness. -/
lemma isSome_option_map {α β : Type} (f : α → β) (o : Option α) :
    (o.map f).isSome = o.isSome := by
  cases o <;> rfl

/-- Every pitch of the key-map loop's range receives a `keyMap` entry. -/
lemma buildKeyMapAux_find_isSome (width whiteWidth : ℚ) (l : List ℕ) :
    ∀ (cw : ℕ) (m : ℕ), m ∈ l →
      ((buildKeyMapAux width whiteWidth l cw).find? (fun p => p.1 == m)).isSome = true := by
  induction l with
  | nil => intro cw m hm; cases hm
  | cons x xs ih =>
    intro cw m hm
    by_cases hx : x = m
    · subst hx
      unfold buildKeyMapAux
      split <;> simp [List.find?]
    · have hm' : m ∈ xs := by
        rcases List.mem_cons.mp hm with h | h
        · exact absurd h.symm hx
        · exact h
      have hbeq : (x == m) = false := by simp [hx]
      unfold buildKeyMapAux
      split <;> simp only [List.find?, hbeq] <;> exact ih _ m hm'

/-! ### Claim theorems -/

/-- Claim C3: when the MIDI parser fails on the given data, `loadMidiFromData`
only toasts the error message; the whole player state — notes, duration,
file name, playing flag and the transport position — is returned unchanged. -/
theorem load_failure_toasts_and_preserves_state (s : PlayerState) (name : String) :
    loadMidiFromData s none name = (s, Toast.error "Failed to load MIDI file.") := rfl

/-- Claim C5: `isBlack` holds exactly on pitch classes `{1, 3, 6, 8, 10}`,
it agrees with the `isBlackKey` lookup of the alternate PianoRoll source, and
`colorForKeyType` yields the brand color exactly on black-key pitches and the
brand-2 color otherwise. -/
theorem isBlack_pitch_class_and_color (m : ℕ) :
    (isBlack m = true ↔
      (m % 12 = 1 ∨ m % 12 = 3 ∨ m % 12 = 6 ∨ m % 12 = 8 ∨ m % 12 = 10)) ∧
    isBlackKey m = isBlack m ∧
    (colorForKeyType m = "hsl(var(--brand))" ↔ isBlack m = true) ∧
    (isBlack m = false → colorForKeyType m = "hsl(var(--brand-2))") := by
  refine ⟨?_, ?_, ?_, ?_⟩
  · simp [isBlack]
    tauto
  · have h : m % 12 < 12 := Nat.mod_lt _ (by norm_num)
    simp only [isBlackKey, isBlack, BLACK_KEY_PC]
    generalize m % 12 = p at h
    interval_cases p <;> rfl
  · cases h : isBlack m <;> simp [colorForKeyType, h]
  · intro h; simp [colorForKeyType, h]

/-- Witness for C5: pitch 61 (C#4) is black and brand-colored, pitch 60 (C4)
is white and brand-2-colored. -/
theorem isBlack_pitch_class_and_color_witness :
    ((61 : ℕ) % 12 = 1 ∧ isBlack 61 = true ∧ isBlack 60 = false) ∧
    colorForKeyType 61 = "hsl(var(--brand))" ∧
    colorForKeyType 60 = "hsl(var(--brand-2))" :=
  ⟨⟨by decide, by decide, by decide⟩,
   (isBlack_pitch_class_and_color 61).2.2.1.mpr (by decide),
   (isBlack_pitch_class_and_color 60).2.2.2 (by decide)⟩

/-- Claim C6: the PianoRoll playhead abscissa `clamp(currentTime * pps, 0,
width)` stays inside `[0, width]` for every current time (negative or past the
total duration) and every nonnegative width; the component's width state is
always at least 320, hence nonnegative. -/
theorem playheadX_in_bounds (currentTime width totalDuration contentWidth : ℚ)
    (hw : 0 ≤ width) :
    (0 ≤ playheadX currentTime width totalDuration ∧
      playheadX currentTime width totalDuration ≤ width) ∧
    320 ≤ resizeWidth contentWidth := by
  refine ⟨⟨le_min hw (le_max_left _ _), min_le_left _ _⟩, le_max_left _ _⟩

/-- Witness for C6 at a negative current time and at one past the duration. -/
theorem playheadX_in_bounds_witness :
    (0 : ℚ) ≤ 800 ∧
    ((0 ≤ playheadX (-5) 800 10 ∧ playheadX (-5) 800 10 ≤ 800) ∧
      (0 ≤ playheadX 99 800 10 ∧ playheadX 99 800 10 ≤ 800)) :=
  ⟨by norm_num,
   (playheadX_in_bounds (-5) 800 10 0 (by norm_num)).1,
   (playheadX_in_bounds 99 800 10 0 (by norm_num)).1⟩

/-- Claim C9: for every notes list the computed pitch range satisfies
`21 ≤ minMidi ≤ maxMidi ≤ 108`, the empty list yields `(21, 108)`, and when
`minMidi ≤ 96` the spread `maxMidi - minMidi` is at least 12. -/
theorem pitch_range_invariants (notes : List PianoNote) :
    21 ≤ (minMaxMidi notes).1 ∧
    (minMaxMidi notes).1 ≤ (minMaxMidi notes).2 ∧
    (minMaxMidi notes).2 ≤ 108 ∧
    (notes = [] → minMaxMidi notes = (21, 108)) ∧
    ((minMaxMidi notes).1 ≤ 96 → 12 ≤ (minMaxMidi notes).2 - (minMaxMidi notes).1) :=
  minMaxMidi_spec notes

/-- Witness for C9: the empty list yields the full default range, and on a
concrete one-note list with `minMidi = 60 ≤ 96` the spread adjustment gives at
least an octave. -/
theorem pitch_range_invariants_witness :
    minMaxMidi ([] : List PianoNote) = (21, 108) ∧
    (minMaxMidi [⟨60, 0, 1, 1⟩]).1 ≤ 96 ∧
    12 ≤ (minMaxMidi [⟨60, 0, 1, 1⟩]).2 - (minMaxMidi [⟨60, 0, 1, 1⟩]).1 :=
  ⟨(pitch_range_invariants []).2.2.2.1 rfl,
   by decide,
   (pitch_range_invariants [⟨60, 0, 1, 1⟩]).2.2.2.2 (by decide)⟩

/-- Claim C2: for every note passing the visibility filter, the unclipped
bottom edge computed by FallingPiano is
`laneHeight - (time - currentTime) * (laneHeight / visibleSeconds)`; at
`currentTime = time` the head sits exactly on the keyboard line; and any entry
the loop emits has its clipped bottom at that value clamped into the lane. -/
theorem falling_note_head_sync (height currentTime : ℚ) (n : PianoNote)
    (hEnd : -1 ≤ n.time + n.duration - currentTime)
    (hStart : n.time - currentTime ≤ visibleSeconds + 1) :
    yBottomFall height currentTime n =
      laneHeight height - (n.time - currentTime) * (laneHeight height / visibleSeconds) ∧
    (currentTime = n.time → yBottomFall height currentTime n = laneHeight height) ∧
    (∀ (km : List (ℕ × KeyInfo)) (e : FallEntry),
      visibleEntry km height currentTime n = some e →
      e.y + e.h = clampQ (yBottomFall height currentTime n) 0 (laneHeight height)) := by
  refine ⟨rfl, ?_, ?_⟩
  · intro h
    subst h
    simp [yBottomFall]
  · intro km e he
    unfold visibleEntry at he
    rcases hk : keyMapFind km n.midi with _ | k
    · rw [hk] at he; exact absurd he (by simp)
    · rw [hk] at he
      simp only at he
      split at he
      · exact absurd he (by simp)
      · split at he
        · exact absurd he (by simp)
        · split at he
          · exact absurd he (by simp)
          · cases he
            simp

/-- Witness for C2: a note starting exactly at the current playback time hits
the keyboard line, and its concrete `visibleNotes` entry ends at the clamped
head position. -/
theorem falling_note_head_sync_witness :
    ((-1 : ℚ) ≤ (0 : ℚ) + 1 - 0 ∧ (0 : ℚ) - 0 ≤ visibleSeconds + 1) ∧
    yBottomFall 520 0 ⟨60, 0, 1, 1⟩ = laneHeight 520 ∧
    (FallEntry.mk ⟨60, 0, 1, 1⟩ 0 100 378 54).y + (FallEntry.mk ⟨60, 0, 1, 1⟩ 0 100 378 54).h
      = clampQ (yBottomFall 520 0 ⟨60, 0, 1, 1⟩) 0 (laneHeight 520) :=
  ⟨⟨by norm_num, by norm_num [visibleSeconds]⟩,
   (falling_note_head_sync 520 0 ⟨60, 0, 1, 1⟩ (by norm_num)
     (by norm_num [visibleSeconds])).2.1 rfl,
   (falling_note_head_sync 520 0 ⟨60, 0, 1, 1⟩ (by norm_num)
     (by norm_num [visibleSeconds])).2.2 [(60, ⟨0, 100, false⟩)]
     ⟨⟨60, 0, 1, 1⟩, 0, 100, 378, 54⟩
     (by norm_num [visibleEntry, keyMapFind, yBottomFall, laneHeight, ppsFall,
       visibleSeconds, keyboardHeight, clampQ, min_def, max_def, List.find?])⟩

/-- Claim C4: `handleScrubEnd` writes the same clamped target
`min(max(0, val), duration || 0)` to both the transport clock and the UI
time, and (for the nonnegative durations the player stores) that target lies
in `[0, duration]`. -/
theorem scrub_end_sync_and_clamp (s : PlayerState) (wasPlaying : Bool) (val : ℚ)
    (hd : 0 ≤ s.duration) :
    (handleScrubEnd s wasPlaying val).transportSeconds =
      (handleScrubEnd s wasPlaying val).currentTime ∧
    (handleScrubEnd s wasPlaying val).currentTime =
      min (max 0 val) (if s.duration = 0 then 0 else s.duration) ∧
    0 ≤ (handleScrubEnd s wasPlaying val).currentTime ∧
    (handleScrubEnd s wasPlaying val).currentTime ≤ s.duration := by
  have htrip : (handleScrubEnd s wasPlaying val).transportSeconds =
        min (max 0 val) (if s.duration = 0 then 0 else s.duration) ∧
      (handleScrubEnd s wasPlaying val).currentTime =
        min (max 0 val) (if s.duration = 0 then 0 else s.duration) := by
    cases wasPlaying <;> simp [handleScrubEnd]
  refine ⟨htrip.1.trans htrip.2.symm, htrip.2, ?_, ?_⟩
  · rw [htrip.2]
    refine le_min (le_max_left _ _) ?_
    split <;> simp [hd]
  · rw [htrip.2]
    refine le_trans (min_le_right _ _) ?_
    split
    · rename_i h0; rw [h0]
    · exact le_rfl

/-- Witness for C4 on a concrete player state with duration 10. -/
theorem scrub_end_sync_and_clamp_witness :
    (0 : ℚ) ≤ (PlayerState.mk none [] 10 false 3 3).duration ∧
    ((handleScrubEnd ⟨none, [], 10, false, 3, 3⟩ false 25).transportSeconds =
        (handleScrubEnd ⟨none, [], 10, false, 3, 3⟩ false 25).currentTime ∧
      (handleScrubEnd ⟨none, [], 10, false, 3, 3⟩ false 25).currentTime =
        min (max 0 25)
          (if (PlayerState.mk none [] 10 false 3 3).duration = 0 then 0
            else (PlayerState.mk none [] 10 false 3 3).duration) ∧
      0 ≤ (handleScrubEnd ⟨none, [], 10, false, 3, 3⟩ false 25).currentTime ∧
      (handleScrubEnd ⟨none, [], 10, false, 3, 3⟩ false 25).currentTime ≤
        (PlayerState.mk none [] 10 false 3 3).duration) :=
  ⟨by norm_num,
   scrub_end_sync_and_clamp ⟨none, [], 10, false, 3, 3⟩ false 25 (by norm_num)⟩

/-- Claim C1: with a positive total duration, every note is rendered by
PianoRoll as a rectangle with left edge `time * (width / totalDuration)`,
width `max(2, duration * (width / totalDuration))`, fixed height 6 and
vertical center `midiToY(midi)`. -/
theorem piano_roll_rect_linear_scaling (notes : List PianoNote)
    (width totalDuration height : ℚ) (n : PianoNote)
    (hd : 0 < totalDuration) (hn : n ∈ notes) :
    noteRect (minMaxMidi notes).1 (minMaxMidi notes).2 width totalDuration height n ∈
      pianoRollRects notes width totalDuration height ∧
    (noteRect (minMaxMidi notes).1 (minMaxMidi notes).2 width totalDuration height n).x
      = n.time * (width / totalDuration) ∧
    (noteRect (minMaxMidi notes).1 (minMaxMidi notes).2 width totalDuration height n).w
      = max 2 (n.duration * (width / totalDuration)) ∧
    (noteRect (minMaxMidi notes).1 (minMaxMidi notes).2 width totalDuration height n).y
        + (noteRect (minMaxMidi notes).1 (minMaxMidi notes).2 width totalDuration height n).h / 2
      = midiToY (minMaxMidi notes).1 (minMaxMidi notes).2 height n.midi ∧
    (noteRect (minMaxMidi notes).1 (minMaxMidi notes).2 width totalDuration height n).h
      = 6 := by
  refine ⟨?_, ?_, ?_, ?_, rfl⟩
  · simp only [pianoRollRects]
    exact List.mem_map_of_mem _ hn
  · simp [noteRect, ppsRoll, hd]
  · simp [noteRect, ppsRoll, hd]
  · simp only [noteRect]
    ring

/-- Witness for C1: a single-note list with total duration 10. -/
theorem piano_roll_rect_linear_scaling_witness :
    ((0 : ℚ) < 10 ∧ (⟨60, 2, 1, 1⟩ : PianoNote) ∈ [(⟨60, 2, 1, 1⟩ : PianoNote)]) ∧
    (noteRect (minMaxMidi [⟨60, 2, 1, 1⟩]).1 (minMaxMidi [⟨60, 2, 1, 1⟩]).2 800 10 420
        ⟨60, 2, 1, 1⟩ ∈ pianoRollRects [⟨60, 2, 1, 1⟩] 800 10 420 ∧
      (noteRect (minMaxMidi [⟨60, 2, 1, 1⟩]).1 (minMaxMidi [⟨60, 2, 1, 1⟩]).2 800 10 420
        ⟨60, 2, 1, 1⟩).x = (2 : ℚ) * (800 / 10) ∧
      (noteRect (minMaxMidi [⟨60, 2, 1, 1⟩]).1 (minMaxMidi [⟨60, 2, 1, 1⟩]).2 800 10 420
        ⟨60, 2, 1, 1⟩).w = max 2 ((1 : ℚ) * (800 / 10)) ∧
      (noteRect (minMaxMidi [⟨60, 2, 1, 1⟩]).1 (minMaxMidi [⟨60, 2, 1, 1⟩]).2 800 10 420
          ⟨60, 2, 1, 1⟩).y
          + (noteRect (minMaxMidi [⟨60, 2, 1, 1⟩]).1 (minMaxMidi [⟨60, 2, 1, 1⟩]).2 800 10 420
          ⟨60, 2, 1, 1⟩).h / 2
        = midiToY (minMaxMidi [⟨60, 2, 1, 1⟩]).1 (minMaxMidi [⟨60, 2, 1, 1⟩]).2 420 60 ∧
      (noteRect (minMaxMidi [⟨60, 2, 1, 1⟩]).1 (minMaxMidi [⟨60, 2, 1, 1⟩]).2 800 10 420
        ⟨60, 2, 1, 1⟩).h = 6) :=
  ⟨⟨by norm_num, by simp⟩,
   piano_roll_rect_linear_scaling [⟨60, 2, 1, 1⟩] 800 10 420 ⟨60, 2, 1, 1⟩
     (by norm_num) (by simp)⟩

/-- Counterexample to claim C7 as stated: at the fractional height 24.5
(which satisfies `height ≥ 24`) and the PianoRoll pitch window of the empty
notes list, `midiToY` returns 13, which exceeds `height - 12 = 12.5`. -/
theorem midiToY_fractional_height_counterexample :
    (24 : ℚ) ≤ 49 / 2 ∧ minMaxMidi [] = (21, 108) ∧
    midiToY 21 108 (49 / 2) 21 = 13 ∧
    ¬ midiToY 21 108 (49 / 2) 21 ≤ 49 / 2 - 12 := by
  have hval : midiToY 21 108 (49 / 2) 21 = 13 := by
    unfold midiToY clampQ jsRound
    norm_num [min_def, max_def]
  refine ⟨by norm_num, rfl, hval, ?_⟩
  rw [hval]
  norm_num

/-- Claim C7 (amended): over the pitch window actually computed by PianoRoll
and for heights at least 24, `midiToY` is monotonically non-increasing in the
pitch; and whenever the height is additionally an integer (as in every use —
420/440/520), its value lies in `[12, height - 12]` for every pitch, also
outside `[minMidi, maxMidi]`. -/
theorem midiToY_mono_and_bounded (notes : List PianoNote) (height : ℚ) (k : ℤ)
    (m1 m2 m : ℕ) (hh : 24 ≤ height) :
    (m1 ≤ m2 →
      midiToY (minMaxMidi notes).1 (minMaxMidi notes).2 height m2 ≤
        midiToY (minMaxMidi notes).1 (minMaxMidi notes).2 height m1) ∧
    (height = (k : ℚ) →
      12 ≤ midiToY (minMaxMidi notes).1 (minMaxMidi notes).2 height m ∧
      midiToY (minMaxMidi notes).1 (minMaxMidi notes).2 height m ≤ height - 12) := by
  constructor
  · intro h12
    exact midiToY_mono _ _ (minMaxMidi_spec notes).2.1 height hh m1 m2 h12
  · intro hk
    subst hk
    have hk24 : (24 : ℤ) ≤ k := by exact_mod_cast hh
    exact midiToY_bounds _ _ k m hk24

/-- Witness for the amended C7 at height 420 with the default pitch window. -/
theorem midiToY_mono_and_bounded_witness :
    ((24 : ℚ) ≤ 420 ∧ 30 ≤ 40 ∧ (420 : ℚ) = ((420 : ℤ) : ℚ)) ∧
    midiToY (minMaxMidi []).1 (minMaxMidi []).2 420 40 ≤
      midiToY (minMaxMidi []).1 (minMaxMidi []).2 420 30 ∧
    12 ≤ midiToY (minMaxMidi []).1 (minMaxMidi []).2 420 60 ∧
    midiToY (minMaxMidi []).1 (minMaxMidi []).2 420 60 ≤ 420 - 12 :=
  ⟨⟨by norm_num, by norm_num, by norm_num⟩,
   (midiToY_mono_and_bounded [] 420 420 30 40 60 (by norm_num)).1 (by norm_num),
   (midiToY_mono_and_bounded [] 420 420 30 40 60 (by norm_num)).2 (by norm_num)⟩

/-- Claim C8: after a successful load, the stored notes list is sorted by
non-decreasing start time, it is a permutation of the notes collected from all
tracks, and the stored duration is the maximum note end time (0 when there are
no notes). -/
theorem load_success_sorted_and_duration (s : PlayerState) (tracks : List MidiTrack)
    (name : String)
    (hnn : ∀ n ∈ collectNotes tracks, 0 ≤ n.time ∧ 0 ≤ n.duration) :
    List.Pairwise (fun a b => a.time ≤ b.time)
      (loadMidiFromData s (some tracks) name).1.notes ∧
    ((loadMidiFromData s (some tracks) name).1.notes).Perm (collectNotes tracks) ∧
    (loadMidiFromData s (some tracks) name).1.duration =
      maxEndTime (loadMidiFromData s (some tracks) name).1.notes ∧
    ((loadMidiFromData s (some tracks) name).1.notes = [] →
      (loadMidiFromData s (some tracks) name).1.duration = 0) := by
  have hnotesEq : (loadMidiFromData s (some tracks) name).1.notes =
      (collectNotes tracks).mergeSort noteTimeLE := rfl
  have hdurEq : (loadMidiFromData s (some tracks) name).1.duration =
      ((collectNotes tracks).mergeSort noteTimeLE).foldl
        (fun acc n => max acc (n.time + n.duration)) 0 := rfl
  have hperm : ((collectNotes tracks).mergeSort noteTimeLE).Perm (collectNotes tracks) :=
    List.mergeSort_perm _ _
  have hnn' : ∀ n ∈ (collectNotes tracks).mergeSort noteTimeLE, 0 ≤ n.time + n.duration := by
    intro n hn
    have := hnn n (hperm.mem_iff.mp hn)
    linarith [this.1, this.2]
  refine ⟨?_, ?_, ?_, ?_⟩
  · rw [hnotesEq]
    have := @List.sorted_mergeSort PianoNote noteTimeLE noteTimeLE_trans noteTimeLE_total
      (collectNotes tracks)
    exact this.imp (fun h => by simpa [noteTimeLE] using h)
  · rw [hnotesEq]; exact hperm
  · rw [hnotesEq, hdurEq]
    exact foldl_max_eq_maxEndTime _ hnn'
  · intro hempty
    rw [hnotesEq] at hempty
    rw [hdurEq, hempty]
    rfl

/-- Witness for C8 on a two-note, one-track file given out of order. -/
theorem load_success_sorted_and_duration_witness :
    (∀ n ∈ collectNotes [⟨[⟨60, 1, 2, 1⟩, ⟨62, 0, 1, 1⟩]⟩], 0 ≤ n.time ∧ 0 ≤ n.duration) ∧
    (List.Pairwise (fun a b => a.time ≤ b.time)
        (loadMidiFromData ⟨none, [], 0, false, 0, 0⟩
          (some [⟨[⟨60, 1, 2, 1⟩, ⟨62, 0, 1, 1⟩]⟩]) "sample.mid").1.notes ∧
      ((loadMidiFromData ⟨none, [], 0, false, 0, 0⟩
          (some [⟨[⟨60, 1, 2, 1⟩, ⟨62, 0, 1, 1⟩]⟩]) "sample.mid").1.notes).Perm
        (collectNotes [⟨[⟨60, 1, 2, 1⟩, ⟨62, 0, 1, 1⟩]⟩]) ∧
      (loadMidiFromData ⟨none, [], 0, false, 0, 0⟩
          (some [⟨[⟨60, 1, 2, 1⟩, ⟨62, 0, 1, 1⟩]⟩]) "sample.mid").1.duration =
        maxEndTime (loadMidiFromData ⟨none, [], 0, false, 0, 0⟩
          (some [⟨[⟨60, 1, 2, 1⟩, ⟨62, 0, 1, 1⟩]⟩]) "sample.mid").1.notes ∧
      ((loadMidiFromData ⟨none, [], 0, false, 0, 0⟩
          (some [⟨[⟨60, 1, 2, 1⟩, ⟨62, 0, 1, 1⟩]⟩]) "sample.mid").1.notes = [] →
        (loadMidiFromData ⟨none, [], 0, false, 0, 0⟩
          (some [⟨[⟨60, 1, 2, 1⟩, ⟨62, 0, 1, 1⟩]⟩]) "sample.mid").1.duration = 0)) ∧
    (loadMidiFromData ⟨none, [], 0, false, 0, 0⟩ (some []) "empty.mid").1.duration = 0 :=
  ⟨by decide,
   load_success_sorted_and_duration ⟨none, [], 0, false, 0, 0⟩
     [⟨[⟨60, 1, 2, 1⟩, ⟨62, 0, 1, 1⟩]⟩] "sample.mid" (by decide),
   (load_success_sorted_and_duration ⟨none, [], 0, false, 0, 0⟩ [] "empty.mid"
       (by simp [collectNotes])).2.2.2
     (by show (collectNotes []).mergeSort noteTimeLE = []; simp [collectNotes])⟩

/-- Claim C10: the FallingPiano `keyMap` contains an entry for every pitch in
`[minMidi, maxMidi]`, so the unguarded lookups performed while rendering the
key columns and keyboard keys over that range never yield `undefined`. -/
theorem keyMap_covers_pitch_range (minMidi maxMidi : ℕ) (width : ℚ) (m : ℕ)
    (h1 : minMidi ≤ m) (h2 : m ≤ maxMidi) :
    (keyMapFind (buildKeyMap minMidi maxMidi width) m).isSome = true := by
  have hmem : m ∈ midiRange minMidi maxMidi := by
    simp only [midiRange, List.mem_map, List.mem_range]
    exact ⟨m - minMidi, by omega, by omega⟩
  unfold keyMapFind
  rw [isSome_option_map]
  exact buildKeyMapAux_find_isSome width
    (width / max 1 ((((midiRange minMidi maxMidi).filter (fun p => !isBlack p)).length : ℕ) : ℚ))
    (midiRange minMidi maxMidi) 0 m hmem

/-- Witness for C10 at a concrete range and pitch. -/
theorem keyMap_covers_pitch_range_witness :
    ((21 : ℕ) ≤ 60 ∧ (60 : ℕ) ≤ 72) ∧
    (keyMapFind (buildKeyMap 21 72 800) 60).isSome = true :=
  ⟨by decide, keyMap_covers_pitch_range 21 72 800 60 (by decide) (by decide)⟩

end LunaMelody
